import Mathlib

/-!
# Verification of the sample ONNX Runtime execution-provider plugin

Shallow embedding of `src/sample_ep.cpp` (the file `src/unnamed/part_000` of
the repository `avikde/onnx-plugin`) together with proofs about the embedded
operations.  Each C++ callback that carries logic is translated into an
executable Lean definition; host-provided calls (the `OrtApi` / `OrtEpApi`
function tables) are modelled as explicit oracles whose outcomes are data of
the embedding, so that mid-scan host failures can be expressed.  Machine
arithmetic on `size_t` is modelled as natural numbers reduced modulo `2 ^ 64`.
-/

namespace SampleEpPlugin

/-- Width of `size_t` on the 64-bit targets the plugin is built for. -/
def usizeMod : Nat := 2 ^ 64

/-- `static_cast<size_t>(d)` for a signed 64-bit dimension `d`
(two's-complement conversion, i.e. reduction modulo `2 ^ 64`). -/
def usizeOf (d : Int) : Nat := (d % (usizeMod : Int)).toNat

/-- The running product `total_elements *= static_cast<size_t>(d)` computed in
`SampleNodeComputeInfo::ComputeImpl` (src/unnamed/part_000 lines 544-545),
with `size_t` overflow made explicit. -/
def totalElements (dims : List Int) : Nat :=
  dims.foldl (fun acc d => (acc * usizeOf d) % usizeMod) 1

/-- A host tensor as seen through `GetTensorTypeAndShape` / `GetTensorData`:
its dimension vector (`int64_t` entries) and the element buffer the data
pointer gives access to.  The element type is a parameter: the C++ kernel
reads the buffers as `float` and applies the single operation `+`. -/
structure Tensor (α : Type) where
  dims : List Int
  data : List α
  deriving Repr, DecidableEq

/-- The part of `OrtKernelContext` the kernel reads: the results of
`KernelContext_GetInput(ctx, 0, ·)` and `KernelContext_GetInput(ctx, 1, ·)`,
where `none` models a null `OrtValue*`. -/
structure KernelContext (α : Type) where
  input0 : Option (Tensor α)
  input1 : Option (Tensor α)
  deriving Repr, DecidableEq

/-- Outcome of one `ComputeImpl` invocation.
`invalidArgument` is `CreateStatus(ORT_INVALID_ARGUMENT, msg)`;
`outOfBoundsRead written` models the undefined behaviour of the C++ loop
reading past the end of an input buffer, recording the output elements that
were written before the faulting read. -/
inductive ComputeResult (α : Type) where
  | success (output : Tensor α)
  | invalidArgument (msg : String)
  | outOfBoundsRead (written : List α)
  deriving Repr, DecidableEq

/-- Whether a compute outcome is the `ORT_INVALID_ARGUMENT` status. -/
def ComputeResult.isInvalidArg : ComputeResult α → Bool
  | .invalidArgument _ => true
  | _ => false

/-- The compute state allocated by `CreateStateImpl`
(struct `ComputeState`, src/unnamed/part_000 lines 488-490). -/
structure ComputeState where
  initialized : Bool := true
  deriving Repr, DecidableEq

/-- `SampleNodeComputeInfo::CreateStateImpl`: ignores the compute context and
allocates a fresh `ComputeState`. -/
def CreateStateImpl : ComputeState := { initialized := true }

/-- The element-wise loop of `ComputeImpl`
(`for (size_t i = 0; i < total_elements; ++i) data_out[i] = data_0[i] + data_1[i];`).
`i` is the loop counter, `rem` the number of iterations left
(`total_elements - i`), `acc` the output elements written so far.  A read at
an index outside either input buffer is out of bounds in C++; the model stops
there and reports the elements already written. -/
def addWriteLoop [Add α] (a b : List α) :
    Nat → Nat → List α → List α × Bool
  | _, 0, acc => (acc, false)
  | i, rem + 1, acc =>
    match a[i]?, b[i]? with
    | some x, some y => addWriteLoop a b (i + 1) rem (acc ++ [x + y])
    | _, _ => (acc, true)

/-- `SampleNodeComputeInfo::ComputeImpl` (src/unnamed/part_000 lines 505-577)
on the host-success path: fetches both inputs (failing with
`ORT_INVALID_ARGUMENT` "Missing inputs" if either is null), takes the
dimension vector of input 0 only, computes `total_elements` from it, creates
the output with those same dimensions and fills it with the element-wise
sums.  The `compute_state` argument is received and, as in the C++
(`(void)compute_state;`), never read. -/
def ComputeImpl [Add α] (compute_state : ComputeState)
    (kernel_context : KernelContext α) : ComputeResult α :=
  match kernel_context.input0, kernel_context.input1 with
  | some t0, some t1 =>
    let dims := t0.dims
    let total := totalElements dims
    match addWriteLoop t0.data t1.data 0 total [] with
    | (out, false) => .success { dims := dims, data := out }
    | (written, true) => .outOfBoundsRead written
  | _, _ => .invalidArgument "Missing inputs"

/-- `SampleNodeComputeInfo::ReleaseStateImpl`: deletes the state; the
observable effect is that the state is gone. -/
def ReleaseStateImpl (_ : ComputeState) : Unit := ()

/-- An `OrtStatus*` object produced by a host-provided call.  The plugin
treats host statuses as opaque handles and propagates them unchanged, so the
model only tracks their identity. -/
structure OrtStatusM where
  ident : Nat
  deriving Repr, DecidableEq

/-- An `OrtNode*` handle: opaque to the plugin, tracked by identity. -/
structure OrtNodeM where
  ident : Nat
  deriving Repr, DecidableEq

/-- The operator allow-list of `SampleEp::GetCapabilityImpl`
(src/unnamed/part_000 lines 335-336): `Add` and `Mul`. -/
def isSupportedOp (op : String) : Bool :=
  op == "Add" || op == "Mul"

/-- The host-provided calls `GetCapabilityImpl` makes, with their outcomes:
`numNodesErr` is a failure of `Graph_GetNumNodes`, `nodes` the node list a
successful `Graph_GetNodes` yields (`none` entries model null node pointers,
which the scan skips), `getNodesErr` a failure of `Graph_GetNodes`,
`opTypeOf` the outcome of `Node_GetOperatorType` (`Except.ok none` models a
null `op_type` string), and `addFuse` a failure of
`EpGraphSupportInfo_AddNodesToFuse` for the given node (`none` = success). -/
structure CapHost where
  numNodesErr : Option OrtStatusM
  nodes : List (Option OrtNodeM)
  getNodesErr : Option OrtStatusM
  opTypeOf : OrtNodeM → Except OrtStatusM (Option String)
  addFuse : OrtNodeM → Option OrtStatusM

/-- The node-scan loop of `GetCapabilityImpl` (src/unnamed/part_000 lines
324-352): for each non-null node, query its operator type (aborting with the
host's status on failure), and if the type is non-null and on the allow-list,
register the node as a single-node fused group (again aborting with the
host's status on failure).  `regs` accumulates the registrations made so
far; the result pairs the registrations with the final status (`none` =
success). -/
def capLoop (h : CapHost) :
    List (Option OrtNodeM) → List (List OrtNodeM) →
    List (List OrtNodeM) × Option OrtStatusM
  | [], regs => (regs, none)
  | none :: rest, regs => capLoop h rest regs
  | some n :: rest, regs =>
    match h.opTypeOf n with
    | .error e => (regs, some e)
    | .ok none => capLoop h rest regs
    | .ok (some op) =>
      if isSupportedOp op then
        match h.addFuse n with
        | some e => (regs, some e)
        | none => capLoop h rest (regs ++ [[n]])
      else capLoop h rest regs

/-- `SampleEp::GetCapabilityImpl` (src/unnamed/part_000 lines 297-355):
queries the node count (propagating a failure), returns success immediately
for an empty graph, retrieves the node list (propagating a failure), and
runs the claim scan.  The result is the list of registered fused groups in
registration order together with the returned status. -/
def GetCapabilityImpl (h : CapHost) :
    List (List OrtNodeM) × Option OrtStatusM :=
  match h.numNodesErr with
  | some e => ([], some e)
  | none =>
    if h.nodes.length = 0 then ([], none)
    else
      match h.getNodesErr with
      | some e => ([], some e)
      | none => capLoop h h.nodes []

/-- The nodes of the scan that `GetCapabilityImpl` claims when every host
call succeeds: non-null nodes whose operator type is non-null and on the
allow-list, in scan order. -/
def claimable (h : CapHost) (optNode : Option OrtNodeM) : Option OrtNodeM :=
  match optNode with
  | none => none
  | some n =>
    match h.opTypeOf n with
    | .ok (some op) => if isSupportedOp op then some n else none
    | _ => none

/-- `OrtHardwareDeviceType` of the ONNX Runtime C API. -/
inductive OrtHardwareDeviceType where
  | CPU
  | GPU
  | NPU
  deriving Repr, DecidableEq

/-- An `OrtHardwareDevice*`: the host owns it; the plugin only reads its
type through `HardwareDevice_Type`.  `ident` tracks the handle identity. -/
structure OrtHardwareDevice where
  ident : Nat
  type : OrtHardwareDeviceType
  deriving Repr, DecidableEq

/-- An `OrtEpDevice*` binding registered through `CreateEpDevice`.  `ident`
is the identity of the freshly created host object; the remaining fields are
the arguments `GetSupportedDevicesImpl` passes: the hardware device, and the
`ep_metadata` / `ep_options` pairs, both passed as null (`none`). -/
structure OrtEpDevice where
  ident : Nat
  device : OrtHardwareDevice
  epMetadata : Option (List (String × String))
  epOptions : Option (List (String × String))
  deriving Repr, DecidableEq

/-- The attributes of a binding apart from its object identity. -/
def OrtEpDevice.attrs (b : OrtEpDevice) :
    OrtHardwareDevice × Option (List (String × String)) ×
    Option (List (String × String)) :=
  (b.device, b.epMetadata, b.epOptions)

/-- The device loop of `SampleEpFactory::GetSupportedDevicesImpl`
(src/unnamed/part_000 lines 142-165): while output capacity remains, claim
each CPU device by creating a fresh `OrtEpDevice` binding through the host
(propagating a host failure), and skip devices of any other type.  `nextId`
is the identity the host gives the next created binding; the result carries
the bindings and the next fresh identity. -/
def enumLoop (createErr : OrtHardwareDevice → Option OrtStatusM) :
    List OrtHardwareDevice → Nat → Nat → List OrtEpDevice →
    Except OrtStatusM (List OrtEpDevice × Nat)
  | [], nextId, _, acc => .ok (acc, nextId)
  | d :: rest, nextId, maxE, acc =>
    if acc.length < maxE then
      if d.type = .CPU then
        match createErr d with
        | some e => .error e
        | none =>
          enumLoop createErr rest (nextId + 1) maxE
            (acc ++ [{ ident := nextId, device := d,
                       epMetadata := none, epOptions := none }])
      else enumLoop createErr rest nextId maxE acc
    else .ok (acc, nextId)

/-- `SampleEpFactory::GetSupportedDevicesImpl` (src/unnamed/part_000 lines
128-168): starts with zero bindings and runs the device loop over the
host-provided device list with output capacity `maxEpDevices`. -/
def GetSupportedDevicesImpl (createErr : OrtHardwareDevice → Option OrtStatusM)
    (devices : List OrtHardwareDevice) (maxEpDevices : Nat) (nextId : Nat) :
    Except OrtStatusM (List OrtEpDevice × Nat) :=
  enumLoop createErr devices nextId maxEpDevices []

/-- The devices `GetSupportedDevicesImpl` matches: CPU devices, in scan
order. -/
def cpuMatches (devices : List OrtHardwareDevice) : List OrtHardwareDevice :=
  devices.filter (fun d => d.type = .CPU)

/-- The bindings the device loop creates for the matched devices `ds`,
starting from fresh identity `nextId`. -/
def bindingsFrom (nextId : Nat) : List OrtHardwareDevice → List OrtEpDevice
  | [] => []
  | d :: rest =>
    { ident := nextId, device := d, epMetadata := none, epOptions := none } ::
      bindingsFrom (nextId + 1) rest

/-- The `SampleEp` object `CreateEpImpl` allocates: it stores only the
back-reference to the owning factory and the session logger
(src/unnamed/part_000 lines 265-266); the model records those as the
factory's EP name and the logger handle identity. -/
structure SampleEp where
  factoryName : String
  sessionLoggerId : Nat
  deriving Repr, DecidableEq

/-- `SampleEpFactory::CreateEpImpl` (src/unnamed/part_000 lines 170-188):
the device list, metadata pairs and session options are all cast to void and
never inspected; a new `SampleEp` bound to the factory and the session
logger is created unconditionally and returned with success. -/
def CreateEpImpl (factoryName : String)
    (devices : List OrtHardwareDevice)
    (ep_metadata_pairs : List (List (String × String)))
    (session_options_id : Nat) (logger_id : Nat) :
    Except OrtStatusM SampleEp :=
  .ok { factoryName := factoryName, sessionLoggerId := logger_id }

/-- A `SampleNodeComputeInfo` object allocated by `CompileImpl`, tracked by
the identity of the heap allocation. -/
structure KernelInfo where
  ident : Nat
  deriving Repr, DecidableEq

/-- The compile loop of `SampleEp::CompileImpl` (src/unnamed/part_000 lines
372-380): for fused-graph slot `i`, allocate a fresh `SampleNodeComputeInfo`
and write it into output slot `i`, and write null into `ep_context_nodes[i]`.
Returns the kernel slots, the `ep_context_nodes` slots, and the next fresh
identity. -/
def compileLoop : List (List OrtNodeM) → Nat →
    List KernelInfo × List (Option OrtNodeM) × Nat
  | [], nextId => ([], [], nextId)
  | _ :: rest, nextId =>
    let (ks, es, n) := compileLoop rest (nextId + 1)
    ({ ident := nextId } :: ks, none :: es, n)

/-- `SampleEp::CompileImpl` (src/unnamed/part_000 lines 357-383): ignores
the graphs and fused nodes themselves and fills every kernel output slot
with a fresh compute info; the `ep_context_nodes` slots are written (all
null) only when the host passed that array (`epContextProvided`). -/
def CompileImpl (fusedUnits : List (List OrtNodeM))
    (epContextProvided : Bool) (nextId : Nat) :
    List KernelInfo × Option (List (Option OrtNodeM)) × Nat :=
  let (ks, es, n) := compileLoop fusedUnits nextId
  (ks, if epContextProvided then some es else none, n)

/-- `OrtEpDataLayout` of the ONNX Runtime C API. -/
inductive OrtEpDataLayout where
  | NCHW
  | NHWC
  deriving Repr, DecidableEq

/-- The ONNX Runtime header defines `OrtEpDataLayout_Default =
OrtEpDataLayout_NCHW`: NCHW is the layout the host uses when a backend
expresses no opinion, so advertising it is the "no preference" answer. -/
def OrtEpDataLayout.Default : OrtEpDataLayout := .NCHW

/-- `SampleEp::GetPreferredDataLayoutImpl` (src/unnamed/part_000 lines
398-403): writes `OrtEpDataLayout_NCHW` and returns success; the EP state is
untouched. -/
def GetPreferredDataLayoutImpl (ep : SampleEp) :
    Except OrtStatusM (SampleEp × OrtEpDataLayout) :=
  .ok (ep, .NCHW)

/-- `SampleEp::ShouldConvertDataLayoutForOpImpl` (src/unnamed/part_000 lines
405-414): ignores the domain, operator type and target layout, writes `-1`
("let ORT decide") and returns success; the EP state is untouched. -/
def ShouldConvertDataLayoutForOpImpl (ep : SampleEp)
    (domain op_type : String) (target : OrtEpDataLayout) :
    Except OrtStatusM (SampleEp × Int) :=
  .ok (ep, -1)

/-- `SampleEp::SetDynamicOptionsImpl` (src/unnamed/part_000 lines 416-424):
ignores every option key/value pair and returns success; the EP state is
untouched. -/
def SetDynamicOptionsImpl (ep : SampleEp)
    (option_keys option_values : List String) : Except OrtStatusM SampleEp :=
  .ok ep

/-- `SampleEp::OnRunStartImpl` (src/unnamed/part_000 lines 426-431): ignores
the run options and returns success; the EP state is untouched. -/
def OnRunStartImpl (ep : SampleEp) (run_options_id : Nat) :
    Except OrtStatusM SampleEp :=
  .ok ep

/-- `SampleEp::OnRunEndImpl` (src/unnamed/part_000 lines 433-439): ignores
the run options and the sync flag and returns success; the EP state is
untouched. -/
def OnRunEndImpl (ep : SampleEp) (run_options_id : Nat) (sync : Bool) :
    Except OrtStatusM SampleEp :=
  .ok ep

/-- The compute-info objects `compileLoop` allocates for `count` slots,
with consecutive fresh identities starting at `nextId`. -/
def kernelsFrom (nextId : Nat) : Nat → List KernelInfo
  | 0 => []
  | count + 1 => { ident := nextId } :: kernelsFrom (nextId + 1) count

/-- A concrete three-node capability query used as a witness input: node 0
is an `Add`, node 1 a `Relu` (not on the allow-list), node 2 a `Mul`; every
host call succeeds. -/
def exampleCapHost : CapHost where
  numNodesErr := none
  nodes := [some ⟨0⟩, some ⟨1⟩, some ⟨2⟩]
  getNodesErr := none
  opTypeOf := fun n =>
    .ok (some (if n.ident = 0 then "Add" else
               if n.ident = 1 then "Relu" else "Mul"))
  addFuse := fun _ => none

/-- A concrete capability query in which the host's operator-type call fails
mid-scan: node 0 is an `Add` (scanned and registered first), and the
`Node_GetOperatorType` call for node 1 fails with host status 7. -/
def exampleFailCapHost : CapHost where
  numNodesErr := none
  nodes := [some ⟨0⟩, some ⟨1⟩]
  getNodesErr := none
  opTypeOf := fun n =>
    if n.ident = 0 then .ok (some "Add") else .error ⟨7⟩
  addFuse := fun _ => none

/-- A concrete capability query in which the host's node-count call
(`Graph_GetNumNodes`) itself fails, with host status 3. -/
def exampleNumNodesFailHost : CapHost where
  numNodesErr := some ⟨3⟩
  nodes := [some ⟨0⟩]
  getNodesErr := none
  opTypeOf := fun _ => .ok (some "Add")
  addFuse := fun _ => none

/-- A concrete capability query in which the host's node-retrieval call
(`Graph_GetNodes`) fails, with host status 9, on a non-empty graph. -/
def exampleGetNodesFailHost : CapHost where
  numNodesErr := none
  nodes := [some ⟨0⟩]
  getNodesErr := some ⟨9⟩
  opTypeOf := fun _ => .ok (some "Add")
  addFuse := fun _ => none

/-! ## Lemmas about the element-wise compute loop -/

/-- When every index the loop will visit is inside both input buffers, the
loop terminates normally and appends the element-wise sums of the visited
index range to the accumulator. -/
theorem addWriteLoop_all_reads {α : Type} [Add α] (a b : List α) (rem : Nat) :
    ∀ (i : Nat) (acc : List α), i + rem ≤ a.length → i + rem ≤ b.length →
    addWriteLoop a b i rem acc =
      (acc ++ List.zipWith (fun x y => x + y)
        ((a.drop i).take rem) ((b.drop i).take rem), false) := by
  induction rem with
  | zero => intro i acc _ _; simp [addWriteLoop]
  | succ rem ih =>
    intro i acc ha hb
    have hia : i < a.length := by omega
    have hib : i < b.length := by omega
    rw [addWriteLoop, List.getElem?_eq_getElem hia, List.getElem?_eq_getElem hib]
    show addWriteLoop a b (i + 1) rem (acc ++ [a[i] + b[i]]) = _
    rw [ih (i + 1) (acc ++ [a[i] + b[i]]) (by omega) (by omega)]
    rw [List.drop_eq_getElem_cons hia, List.drop_eq_getElem_cons hib,
      List.take_succ_cons, List.take_succ_cons, List.zipWith_cons_cons,
      List.append_assoc, List.singleton_append]

/-- When buffer `b` ends before the loop's index range does, the loop reaches
the first index outside `b`, having appended exactly the sums for the indices
of `b` it visited, and stops with the out-of-bounds flag. -/
theorem addWriteLoop_past_b {α : Type} [Add α] (a b : List α) (rem : Nat) :
    ∀ (i : Nat) (acc : List α),
      i + rem ≤ a.length → b.length < i + rem → i ≤ b.length →
    addWriteLoop a b i rem acc =
      (acc ++ List.zipWith (fun x y => x + y)
        ((a.drop i).take (b.length - i)) (b.drop i), true) := by
  induction rem with
  | zero => intro i acc _ hb hi; omega
  | succ rem ih =>
    intro i acc ha hb hi
    have hia : i < a.length := by omega
    by_cases hib : i < b.length
    · rw [addWriteLoop, List.getElem?_eq_getElem hia, List.getElem?_eq_getElem hib]
      show addWriteLoop a b (i + 1) rem (acc ++ [a[i] + b[i]]) = _
      rw [ih (i + 1) (acc ++ [a[i] + b[i]]) (by omega) (by omega) (by omega)]
      rw [show b.length - i = (b.length - (i + 1)) + 1 by omega]
      rw [List.drop_eq_getElem_cons hia, List.drop_eq_getElem_cons hib,
        List.take_succ_cons, List.zipWith_cons_cons,
        List.append_assoc, List.singleton_append]
    · have hbe : b.length ≤ i := by omega
      have hnone : b[i]? = none := List.getElem?_eq_none hbe
      have hz : b.length - i = 0 := by omega
      rw [addWriteLoop, List.getElem?_eq_getElem hia, hnone, hz]
      simp

/-! ## Claims about the kernel compute path -/

/-- C1: for two input tensors of identical shape whose buffers hold one
element per flattened index of that shape, `ComputeImpl` succeeds and its
output carries that shape and the element-wise sums: position `i` of the
`zipWith` is `A[i] + B[i]` for every flattened index `i`. -/
theorem Compute_add_correct {α : Type} [Add α] (state : ComputeState)
    (t0 t1 : Tensor α)
    (hdims : t1.dims = t0.dims)
    (hl0 : t0.data.length = totalElements t0.dims)
    (hl1 : t1.data.length = totalElements t1.dims) :
    ComputeImpl state { input0 := some t0, input1 := some t1 } =
      .success { dims := t0.dims,
                 data := List.zipWith (fun x y => x + y) t0.data t1.data } := by
  rw [hdims] at hl1
  simp only [ComputeImpl]
  rw [addWriteLoop_all_reads t0.data t1.data (totalElements t0.dims) 0 []
    (by omega) (by omega)]
  rw [List.drop_zero, List.drop_zero,
    List.take_of_length_le hl0.le, List.take_of_length_le hl1.le]
  rfl

/-- Witness for C1 at the spec's example: A = [1,2,3,4], B = [10,20,30,40],
both of shape [1,4], yield [11,22,33,44]. -/
theorem Compute_add_correct_witness :
    ((⟨[1, 4], [10, 20, 30, 40]⟩ : Tensor Int).dims =
        (⟨[1, 4], [1, 2, 3, 4]⟩ : Tensor Int).dims)
    ∧ ([(1 : Int), 2, 3, 4].length = totalElements [1, 4])
    ∧ ([(10 : Int), 20, 30, 40].length = totalElements [1, 4])
    ∧ ComputeImpl { } { input0 := some (⟨[1, 4], [1, 2, 3, 4]⟩ : Tensor Int),
                        input1 := some ⟨[1, 4], [10, 20, 30, 40]⟩ } =
        .success ⟨[1, 4], [11, 22, 33, 44]⟩ :=
  ⟨rfl, by decide, by decide,
    Compute_add_correct { } (⟨[1, 4], [1, 2, 3, 4]⟩ : Tensor Int)
      ⟨[1, 4], [10, 20, 30, 40]⟩ rfl (by decide) (by decide)⟩

/-- C2 counterexample: at the spec's own mismatched-shape example
(A of shape [1,4] with data [1,2,3,4], B of shape [1,3] with data
[10,20,30]), `ComputeImpl` does not fail with `ORT_INVALID_ARGUMENT`: it
determines the element count 4 from input 0 alone, writes the first three
output elements, and then reads past the end of input 1's buffer (undefined
behaviour in the C++, an explicit out-of-bounds outcome in the model). -/
theorem Compute_mismatch_not_invalid_argument :
    ComputeImpl { } { input0 := some (⟨[1, 4], [1, 2, 3, 4]⟩ : Tensor Int),
                      input1 := some ⟨[1, 3], [10, 20, 30]⟩ } =
      .outOfBoundsRead [11, 22, 33]
    ∧ (ComputeImpl { } { input0 := some (⟨[1, 4], [1, 2, 3, 4]⟩ : Tensor Int),
                         input1 := some ⟨[1, 3], [10, 20, 30]⟩ }).isInvalidArg
        = false := by
  constructor <;> decide

/-- C2 (amended): `ComputeImpl` never compares the two inputs' shapes or
ranks.  The element count and the output shape come from input 0 alone.
When input 1's buffer holds at least that many elements the call succeeds
(even if the shapes differ), writing the element-wise sums of the first
`totalElements t0.dims` elements; when input 1's buffer is shorter, the call
does not return `ORT_INVALID_ARGUMENT` — it writes the sums for input 1's
indices and then performs an out-of-bounds read of input 1's buffer.
`ORT_INVALID_ARGUMENT` arises only for a missing input tensor. -/
theorem Compute_performs_no_shape_check {α : Type} [Add α]
    (state : ComputeState) (t0 t1 : Tensor α)
    (ha : totalElements t0.dims ≤ t0.data.length) :
    (totalElements t0.dims ≤ t1.data.length →
      ComputeImpl state { input0 := some t0, input1 := some t1 } =
        .success { dims := t0.dims,
                   data := List.zipWith (fun x y => x + y)
                     (t0.data.take (totalElements t0.dims))
                     (t1.data.take (totalElements t0.dims)) })
    ∧ (t1.data.length < totalElements t0.dims →
      ComputeImpl state { input0 := some t0, input1 := some t1 } =
        .outOfBoundsRead (List.zipWith (fun x y => x + y)
          (t0.data.take t1.data.length) t1.data)) := by
  constructor
  · intro hb
    simp only [ComputeImpl]
    rw [addWriteLoop_all_reads t0.data t1.data (totalElements t0.dims) 0 []
      (by omega) (by omega)]
    rw [List.drop_zero, List.drop_zero]
    rfl
  · intro hb
    simp only [ComputeImpl]
    rw [addWriteLoop_past_b t0.data t1.data (totalElements t0.dims) 0 []
      (by omega) (by omega) (by omega)]
    rw [List.drop_zero, List.drop_zero, Nat.sub_zero]
    rfl

/-- Witness for the amended C2 at the spec's mismatched-shape example. -/
theorem Compute_performs_no_shape_check_witness :
    totalElements [1, 4] ≤ [(1 : Int), 2, 3, 4].length
    ∧ [(10 : Int), 20, 30].length < totalElements [1, 4]
    ∧ ComputeImpl { } { input0 := some (⟨[1, 4], [1, 2, 3, 4]⟩ : Tensor Int),
                        input1 := some ⟨[1, 3], [10, 20, 30]⟩ } =
        .outOfBoundsRead [11, 22, 33] :=
  ⟨by decide, by decide,
    (Compute_performs_no_shape_check { } (⟨[1, 4], [1, 2, 3, 4]⟩ : Tensor Int)
      ⟨[1, 3], [10, 20, 30]⟩ (by decide)).2 (by decide)⟩

/-- C10: the result of `ComputeImpl` does not depend on the invocation-state
argument: the C++ discards it (`(void)compute_state;`), so any two states
give identical outcomes on the same kernel context. -/
theorem Compute_independent_of_state {α : Type} [Add α]
    (s1 s2 : ComputeState) (ctx : KernelContext α) :
    ComputeImpl s1 ctx = ComputeImpl s2 ctx := rfl

/-! ## Lemmas about the capability scan -/

/-- Scanning an initial segment on which every host call succeeds registers
exactly the claimable nodes of that segment, in scan order, and continues
with the rest of the node list. -/
theorem capLoop_append_all_ok (h : CapHost) (pre : List (Option OrtNodeM)) :
    (∀ n, some n ∈ pre → (∃ o, h.opTypeOf n = .ok o) ∧ h.addFuse n = none) →
    ∀ (rest : List (Option OrtNodeM)) (regs : List (List OrtNodeM)),
    capLoop h (pre ++ rest) regs =
      capLoop h rest
        (regs ++ (pre.filterMap (claimable h)).map (fun m => [m])) := by
  induction pre with
  | nil => intro _ rest regs; simp [claimable]
  | cons hd tl ih =>
    intro hok rest regs
    match hd with
    | none =>
      rw [List.cons_append, capLoop,
        ih (fun m hm => hok m (List.mem_cons_of_mem _ hm)) rest regs]
      simp [claimable]
    | some n =>
      obtain ⟨⟨o, ho⟩, ha⟩ := hok n (List.mem_cons_self _ _)
      rw [List.cons_append, capLoop, ho]
      match o with
      | none =>
        rw [ih (fun m hm => hok m (List.mem_cons_of_mem _ hm)) rest regs]
        simp [claimable, ho]
      | some op =>
        by_cases hsup : isSupportedOp op = true
        · simp only [hsup, if_true, ha]
          rw [ih (fun m hm => hok m (List.mem_cons_of_mem _ hm)) rest
            (regs ++ [[n]])]
          simp [claimable, ho, hsup, List.append_assoc]
        · simp only [hsup, if_false, Bool.false_eq_true]
          rw [ih (fun m hm => hok m (List.mem_cons_of_mem _ hm)) rest regs]
          simp [claimable, ho, hsup]

/-! ## Claims about the capability partitioner -/

/-- C3: when every host call succeeds, the capability query registers one
single-node fused unit per node whose operator type is on the allow-list
(`Add`/`Mul`), in node scan order, skipping all other nodes, and returns
success; in particular an empty graph registers zero units and returns
success. -/
theorem GetCapability_claims_exactly_supported (h : CapHost)
    (h1 : h.numNodesErr = none) (h2 : h.getNodesErr = none)
    (hok : ∀ n, some n ∈ h.nodes →
      (∃ o, h.opTypeOf n = .ok o) ∧ h.addFuse n = none) :
    GetCapabilityImpl h =
      ((h.nodes.filterMap (claimable h)).map (fun m => [m]), none) := by
  simp only [GetCapabilityImpl, h1, h2]
  by_cases hn : h.nodes.length = 0
  · rw [if_pos hn]
    rw [List.length_eq_zero] at hn
    simp [hn]
  · rw [if_neg hn]
    have hc := capLoop_append_all_ok h h.nodes hok [] []
    simpa [capLoop] using hc

/-- Witness for C3 on the concrete three-node graph: the `Add` node and the
`Mul` node are claimed as singleton units in scan order, the `Relu` node is
skipped, and the query succeeds. -/
theorem GetCapability_claims_exactly_supported_witness :
    exampleCapHost.numNodesErr = none
    ∧ exampleCapHost.getNodesErr = none
    ∧ (∀ n, some n ∈ exampleCapHost.nodes →
        (∃ o, exampleCapHost.opTypeOf n = .ok o)
        ∧ exampleCapHost.addFuse n = none)
    ∧ GetCapabilityImpl exampleCapHost = ([[⟨0⟩], [⟨2⟩]], none) :=
  ⟨rfl, rfl, fun _ _ => ⟨⟨_, rfl⟩, rfl⟩,
    GetCapability_claims_exactly_supported exampleCapHost rfl rfl
      (fun _ _ => ⟨⟨_, rfl⟩, rfl⟩)⟩

/-- C7: whichever of the four host-provided calls fails mid-scan, the
capability query aborts at that call, registers no unit at or after it, and
surfaces the failing call's own status object (which in the design taxonomy
is the `HostCommunicationError` for that query).  The three branches cover
all four calls: (1) the node-count query (`Graph_GetNumNodes`) fails — the
query returns that status with zero registrations; (2) the node-retrieval
call (`Graph_GetNodes`) fails on a non-empty graph — likewise zero
registrations; (3) the operator-type query (`Node_GetOperatorType`) for a
scanned node fails, or the unit-registration call
(`EpGraphSupportInfo_AddNodesToFuse`) for a supported node fails, after an
initial segment on which every host call succeeded — the registered units
are exactly those of that initial segment. -/
theorem GetCapability_aborts_on_host_failure (h : CapHost) (e : OrtStatusM) :
    (h.numNodesErr = some e → GetCapabilityImpl h = ([], some e))
    ∧ (h.numNodesErr = none → h.nodes.length ≠ 0 → h.getNodesErr = some e →
        GetCapabilityImpl h = ([], some e))
    ∧ (∀ (pre post : List (Option OrtNodeM)) (n : OrtNodeM),
        h.numNodesErr = none → h.getNodesErr = none →
        h.nodes = pre ++ some n :: post →
        (∀ m, some m ∈ pre →
          (∃ o, h.opTypeOf m = .ok o) ∧ h.addFuse m = none) →
        (h.opTypeOf n = .error e ∨
          (∃ op, h.opTypeOf n = .ok (some op) ∧ isSupportedOp op = true
            ∧ h.addFuse n = some e)) →
        GetCapabilityImpl h =
          ((pre.filterMap (claimable h)).map (fun m => [m]), some e)) := by
  refine ⟨?_, ?_, ?_⟩
  · intro h1
    simp [GetCapabilityImpl, h1]
  · intro h1 hn h2
    simp only [GetCapabilityImpl, h1]
    rw [if_neg hn]
    simp [h2]
  · intro pre post n h1 h2 hsplit hpre hfail
    simp only [GetCapabilityImpl, h1, h2]
    have hlen : h.nodes.length ≠ 0 := by rw [hsplit]; simp
    rw [if_neg hlen, hsplit,
      capLoop_append_all_ok h pre hpre (some n :: post) []]
    rcases hfail with hf | ⟨op, ho, hsup, ha⟩
    · rw [capLoop, hf]
      simp
    · rw [capLoop, ho]
      simp only [hsup, if_true, ha]
      simp

/-- Witness for C7 exercising three concrete failing queries: a node-count
failure (host status 3) and a node-retrieval failure (host status 9), each
returning that status with zero registrations, and an operator-type failure
at node 1 of a two-node graph (host status 7) after the `Add` node 0 was
registered, returning that status with only the earlier registration. -/
theorem GetCapability_aborts_on_host_failure_witness :
    exampleNumNodesFailHost.numNodesErr = some ⟨3⟩
    ∧ GetCapabilityImpl exampleNumNodesFailHost = ([], some ⟨3⟩)
    ∧ exampleGetNodesFailHost.numNodesErr = none
    ∧ exampleGetNodesFailHost.nodes.length ≠ 0
    ∧ exampleGetNodesFailHost.getNodesErr = some ⟨9⟩
    ∧ GetCapabilityImpl exampleGetNodesFailHost = ([], some ⟨9⟩)
    ∧ exampleFailCapHost.nodes = [some ⟨0⟩] ++ some ⟨1⟩ :: []
    ∧ exampleFailCapHost.numNodesErr = none
    ∧ exampleFailCapHost.getNodesErr = none
    ∧ (∀ m, some m ∈ [some (⟨0⟩ : OrtNodeM)] →
        (∃ o, exampleFailCapHost.opTypeOf m = .ok o)
        ∧ exampleFailCapHost.addFuse m = none)
    ∧ exampleFailCapHost.opTypeOf ⟨1⟩ = .error ⟨7⟩
    ∧ GetCapabilityImpl exampleFailCapHost = ([[⟨0⟩]], some ⟨7⟩) :=
  ⟨rfl,
    (GetCapability_aborts_on_host_failure exampleNumNodesFailHost ⟨3⟩).1 rfl,
    rfl, by decide, rfl,
    (GetCapability_aborts_on_host_failure exampleGetNodesFailHost ⟨9⟩).2.1
      rfl (by decide) rfl,
    rfl, rfl, rfl,
    fun m hm => by
      simp only [List.mem_singleton, Option.some.injEq] at hm
      subst hm
      exact ⟨⟨_, rfl⟩, rfl⟩,
    rfl,
    (GetCapability_aborts_on_host_failure exampleFailCapHost ⟨7⟩).2.2
      [some ⟨0⟩] [] ⟨1⟩ rfl rfl rfl
      (fun m hm => by
        simp only [List.mem_singleton, Option.some.injEq] at hm
        subst hm
        exact ⟨⟨_, rfl⟩, rfl⟩)
      (Or.inl rfl)⟩

/-! ## Lemmas about device enumeration -/

/-- On a host whose binding-creation call always succeeds, the device loop
appends one binding (with consecutive fresh identities) for each of the CPU
devices that fit into the remaining capacity, in scan order, and returns
success with the advanced identity counter. -/
theorem enumLoop_all_ok (createErr : OrtHardwareDevice → Option OrtStatusM)
    (hce : ∀ d, createErr d = none) (devs : List OrtHardwareDevice) :
    ∀ (nextId maxE : Nat) (acc : List OrtEpDevice),
    enumLoop createErr devs nextId maxE acc =
      .ok (acc ++ bindingsFrom nextId
             ((cpuMatches devs).take (maxE - acc.length)),
           nextId + ((cpuMatches devs).take (maxE - acc.length)).length) := by
  induction devs with
  | nil => intro nextId maxE acc; simp [enumLoop, bindingsFrom, cpuMatches]
  | cons d rest ih =>
    intro nextId maxE acc
    by_cases hcap : acc.length < maxE
    · rw [enumLoop, if_pos hcap]
      by_cases hcpu : d.type = .CPU
      · rw [if_pos hcpu, hce d]
        show enumLoop createErr rest (nextId + 1) maxE
          (acc ++ [{ ident := nextId, device := d,
                     epMetadata := none, epOptions := none }]) = _
        rw [ih]
        have hm : cpuMatches (d :: rest) = d :: cpuMatches rest := by
          simp [cpuMatches, hcpu]
        rw [hm, show maxE - acc.length = (maxE - (acc.length + 1)) + 1 by
          omega]
        rw [List.take_succ_cons, bindingsFrom]
        simp [List.append_assoc, Except.ok.injEq, Prod.mk.injEq] <;> omega
      · rw [if_neg hcpu, ih nextId maxE acc]
        have hm : cpuMatches (d :: rest) = cpuMatches rest := by
          simp [cpuMatches, hcpu]
        rw [hm]
    · rw [enumLoop, if_neg hcap]
      have hz : maxE - acc.length = 0 := by omega
      simp [hz, bindingsFrom]

/-- Each binding list created by `bindingsFrom` has one binding per matched
device. -/
theorem bindingsFrom_length (ds : List OrtHardwareDevice) :
    ∀ i, (bindingsFrom i ds).length = ds.length := by
  induction ds with
  | nil => intro i; simp [bindingsFrom]
  | cons d rest ih => intro i; simp [bindingsFrom, ih]

/-- The per-binding attributes created by `bindingsFrom` do not depend on
the starting identity. -/
theorem bindingsFrom_attrs (ds : List OrtHardwareDevice) :
    ∀ i j, (bindingsFrom i ds).map OrtEpDevice.attrs =
      (bindingsFrom j ds).map OrtEpDevice.attrs := by
  induction ds with
  | nil => intro i j; simp [bindingsFrom]
  | cons d rest ih =>
    intro i j
    simp [bindingsFrom, OrtEpDevice.attrs, ih (i + 1) (j + 1)]

/-- Every binding created by `bindingsFrom i ds` has an identity in the
interval `[i, i + ds.length)`. -/
theorem bindingsFrom_ident_range (ds : List OrtHardwareDevice) :
    ∀ i b, b ∈ bindingsFrom i ds → i ≤ b.ident ∧ b.ident < i + ds.length := by
  induction ds with
  | nil => intro i b hb; simp [bindingsFrom] at hb
  | cons d rest ih =>
    intro i b hb
    simp only [bindingsFrom, List.mem_cons] at hb
    rcases hb with hb | hb
    · subst hb
      refine ⟨Nat.le_refl i, ?_⟩
      show i < i + (d :: rest).length
      simp only [List.length_cons]
      omega
    · have h2 := ih (i + 1) b hb
      simp only [List.length_cons]
      omega

/-! ## Claims about the factory -/

/-- C5 counterexample: with two CPU devices, capacity 1 and a host whose
binding-creation call succeeds, enumeration does not fail: it returns
success with a single binding for the first CPU device — the code truncates
at capacity instead of reporting exhaustion. -/
theorem GetSupportedDevices_overflow_succeeds :
    GetSupportedDevicesImpl (fun _ => none)
      [⟨0, .CPU⟩, ⟨1, .CPU⟩] 1 100 =
      .ok ([⟨100, ⟨0, .CPU⟩, none, none⟩], 101) := rfl

/-- C5 (amended): when the host's binding-creation call succeeds,
enumeration always returns success; it creates exactly one binding per CPU
device in scan order up to the supplied capacity, silently truncating the
matches that exceed it (it never fails for insufficient capacity).  When
capacity suffices, `take maxE` keeps every match, so there is exactly one
binding per matching device. -/
theorem GetSupportedDevices_truncates
    (createErr : OrtHardwareDevice → Option OrtStatusM)
    (devices : List OrtHardwareDevice) (maxE nextId : Nat)
    (hce : ∀ d, createErr d = none) :
    GetSupportedDevicesImpl createErr devices maxE nextId =
      .ok (bindingsFrom nextId ((cpuMatches devices).take maxE),
           nextId + ((cpuMatches devices).take maxE).length) := by
  unfold GetSupportedDevicesImpl
  rw [enumLoop_all_ok createErr hce devices nextId maxE []]
  simp

/-- Witness for the amended C5: three devices of which two are CPUs, with
capacity 1: enumeration succeeds with exactly one binding, for the first
CPU device. -/
theorem GetSupportedDevices_truncates_witness :
    (∀ d, (fun (_ : OrtHardwareDevice) => (none : Option OrtStatusM)) d = none)
    ∧ GetSupportedDevicesImpl (fun _ => none)
        [⟨0, .CPU⟩, ⟨1, .GPU⟩, ⟨2, .CPU⟩] 1 40 =
        .ok ([⟨40, ⟨0, .CPU⟩, none, none⟩], 41) :=
  ⟨fun _ => rfl,
    GetSupportedDevices_truncates (fun _ => none)
      [⟨0, .CPU⟩, ⟨1, .GPU⟩, ⟨2, .CPU⟩] 1 40 (fun _ => rfl)⟩

/-- C8: enumeration is idempotent.  Two calls with the same device list and
sufficient capacity (on a host whose binding-creation call succeeds, the
second call starting from the identity counter the first call left) return
the same number of bindings with identical per-binding attributes, and no
binding of the second call is the same host object as any binding of the
first call — the bindings are fresh, independently releasable objects. -/
theorem GetSupportedDevices_idempotent
    (createErr : OrtHardwareDevice → Option OrtStatusM)
    (devices : List OrtHardwareDevice) (maxE id0 : Nat)
    (hce : ∀ d, createErr d = none)
    (hcap : (cpuMatches devices).length ≤ maxE) :
    ∃ l1 n1 l2 n2,
      GetSupportedDevicesImpl createErr devices maxE id0 = .ok (l1, n1)
      ∧ GetSupportedDevicesImpl createErr devices maxE n1 = .ok (l2, n2)
      ∧ l1.length = l2.length
      ∧ l1.map OrtEpDevice.attrs = l2.map OrtEpDevice.attrs
      ∧ ∀ b1 ∈ l1, ∀ b2 ∈ l2, b1.ident ≠ b2.ident := by
  have hM : ((cpuMatches devices).take maxE) = cpuMatches devices :=
    List.take_of_length_le hcap
  refine ⟨bindingsFrom id0 (cpuMatches devices),
    id0 + (cpuMatches devices).length,
    bindingsFrom (id0 + (cpuMatches devices).length) (cpuMatches devices),
    id0 + (cpuMatches devices).length + (cpuMatches devices).length,
    ?_, ?_, ?_, ?_, ?_⟩
  · rw [GetSupportedDevicesImpl, enumLoop_all_ok createErr hce devices id0 maxE []]
    simp [hM]
  · rw [GetSupportedDevicesImpl,
      enumLoop_all_ok createErr hce devices (id0 + (cpuMatches devices).length) maxE []]
    simp [hM]
  · rw [bindingsFrom_length, bindingsFrom_length]
  · exact bindingsFrom_attrs (cpuMatches devices) _ _
  · intro b1 hb1 b2 hb2
    have h1 := bindingsFrom_ident_range (cpuMatches devices) id0 b1 hb1
    have h2 := bindingsFrom_ident_range (cpuMatches devices)
      (id0 + (cpuMatches devices).length) b2 hb2
    omega

/-- Witness for C8: two enumerations over a CPU+GPU+CPU device list with
capacity 8 yield two bindings each, with equal attributes and disjoint
binding identities. -/
theorem GetSupportedDevices_idempotent_witness :
    (∀ d, (fun (_ : OrtHardwareDevice) => (none : Option OrtStatusM)) d = none)
    ∧ (cpuMatches [⟨0, .CPU⟩, ⟨1, .GPU⟩, ⟨2, .CPU⟩]).length ≤ 8
    ∧ ∃ l1 n1 l2 n2,
        GetSupportedDevicesImpl (fun _ => none)
          [⟨0, .CPU⟩, ⟨1, .GPU⟩, ⟨2, .CPU⟩] 8 5 = .ok (l1, n1)
        ∧ GetSupportedDevicesImpl (fun _ => none)
            [⟨0, .CPU⟩, ⟨1, .GPU⟩, ⟨2, .CPU⟩] 8 n1 = .ok (l2, n2)
        ∧ l1.length = l2.length
        ∧ l1.map OrtEpDevice.attrs = l2.map OrtEpDevice.attrs
        ∧ ∀ b1 ∈ l1, ∀ b2 ∈ l2, b1.ident ≠ b2.ident :=
  ⟨fun _ => rfl, by decide,
    GetSupportedDevices_idempotent (fun _ => none)
      [⟨0, .CPU⟩, ⟨1, .GPU⟩, ⟨2, .CPU⟩] 8 5 (fun _ => rfl) (by decide)⟩

/-- C4 counterexample: a session-creation request whose device list holds
only a GPU — no device of the kind this backend supports — does not fail
with an unsupported-device error: `CreateEpImpl` succeeds and returns a
fresh `SampleEp` session object. -/
theorem CreateEp_unsupported_devices_succeeds :
    CreateEpImpl "SampleEpPluginExecutionProvider" [⟨0, .GPU⟩] [] 0 7 =
      .ok { factoryName := "SampleEpPluginExecutionProvider",
            sessionLoggerId := 7 } := rfl

/-- C4 (amended): `CreateEpImpl` never inspects the selected devices, the
metadata or the session options: for every input — including a device list
with no supported device, or an empty one — it succeeds and creates exactly
one `SampleEp` session bound to the factory and the session logger.  It
cannot fail with `UnsupportedDevice` (and therefore also never leaks a
session on such a failure, since there is no such failure path). -/
theorem CreateEp_always_succeeds (factoryName : String)
    (devices : List OrtHardwareDevice)
    (ep_metadata_pairs : List (List (String × String)))
    (session_options_id logger_id : Nat) :
    CreateEpImpl factoryName devices ep_metadata_pairs
      session_options_id logger_id =
      .ok { factoryName := factoryName, sessionLoggerId := logger_id } := rfl

/-! ## Claims about the compiler -/

/-- C6: for a batch of `M` claimed units, `CompileImpl` creates exactly one
fresh compute-info object per unit and writes it into the corresponding
output slot (slot `i` gets the `i`-th freshly allocated kernel), and writes
null into every paired `ep_context_nodes` slot when the host provides that
array (the backend offers no serialized representation); without the array
the serialized side stays untouched. -/
theorem Compile_one_kernel_per_unit (units : List (List OrtNodeM))
    (nextId : Nat) :
    CompileImpl units true nextId =
      (kernelsFrom nextId units.length,
       some (List.replicate units.length none), nextId + units.length)
    ∧ CompileImpl units false nextId =
      (kernelsFrom nextId units.length, none, nextId + units.length) := by
  have hloop : ∀ (us : List (List OrtNodeM)) (i : Nat),
      compileLoop us i =
        (kernelsFrom i us.length, List.replicate us.length none,
         i + us.length) := by
    intro us
    induction us with
    | nil => intro i; simp [compileLoop, kernelsFrom]
    | cons u rest ih =>
      intro i
      simp only [compileLoop, ih (i + 1), List.length_cons]
      rw [show i + (rest.length + 1) = (i + 1) + rest.length by omega]
      simp [kernelsFrom, List.replicate]
  constructor <;> simp [CompileImpl, hloop units nextId]

/-! ## Claims about the optional advisory hooks -/

/-- C9: every optional advisory hook returns success without touching the
EP state, and answers with the neutral value: the preferred-layout hook
advertises NCHW, which the ONNX Runtime header fixes as
`OrtEpDataLayout_Default` (the layout used when a backend has no opinion);
the layout-conversion query answers `-1` ("let ORT decide"); dynamic option
updates and the pre/post-run notifications return success and ignore their
arguments. -/
theorem Optional_hooks_are_noops (ep : SampleEp) (domain op_type : String)
    (target : OrtEpDataLayout) (option_keys option_values : List String)
    (run_options_id : Nat) (sync : Bool) :
    GetPreferredDataLayoutImpl ep = .ok (ep, OrtEpDataLayout.Default)
    ∧ ShouldConvertDataLayoutForOpImpl ep domain op_type target = .ok (ep, -1)
    ∧ SetDynamicOptionsImpl ep option_keys option_values = .ok ep
    ∧ OnRunStartImpl ep run_options_id = .ok ep
    ∧ OnRunEndImpl ep run_options_id sync = .ok ep :=
  ⟨rfl, rfl, rfl, rfl, rfl⟩

end SampleEpPlugin
